import Mathlib

/- Verification of the salsa spectral-chart scripts
   (src/assets/observe_chart.js and src/assets/observation_chart.js).
   JavaScript numbers are modelled as exact rationals; the decoded
   float64 values of a binary frame are modelled by their IEEE-754
   bit-pattern interpretation (sign, exponent, mantissa). -/

namespace Salsa

/-- Speed of light in m/s (observe_chart.js line 11, observation_chart.js line 2). -/
def C : ℚ := 299792458

/-- Rest frequency of the neutral-hydrogen line in Hz: the source literal
1420.405751e6 (observe_chart.js line 12, observation_chart.js line 3). -/
def F_REST : ℚ := 1420405751

/-- One stored spectral sample: raw frequency in Hz and amplitude
(the objects pushed onto latestData / rawData). -/
structure RawSample where
  freqHz : ℚ
  y : ℚ
deriving DecidableEq

/-- One display point handed to the line generator and the axis scaler. -/
structure Point where
  x : ℚ
  y : ℚ
deriving DecidableEq

/-- freqToVlsr (observe_chart.js lines 22-24, observation_chart.js lines 50-52):
Doppler velocity in km/s for a raw frequency in Hz, given the correction in m/s. -/
def freqToVlsr (corr freq : ℚ) : ℚ :=
  (C * (F_REST - freq) / F_REST + corr) / 1000

/-- Per-sample display conversion, from getDisplayData
(observe_chart.js lines 122-133, observation_chart.js lines 54-65):
the velocity branch is taken exactly when the unit flag is set and the
correction is non-null; otherwise the x coordinate is frequency in MHz. -/
def toDisplay (sv : Bool) (corr : Option ℚ) (s : RawSample) : Point :=
  match sv, corr with
  | true, some c => ⟨freqToVlsr c s.freqHz, s.y⟩
  | _, _ => ⟨s.freqHz / 1000000, s.y⟩

/-- getDisplayData: maps the stored samples to display points. -/
def getDisplayData (sv : Bool) (corr : Option ℚ) (data : List RawSample) : List Point :=
  data.map (toDisplay sv corr)

/-- C1 counterexample: at frequencyHz = F_REST - 1000 with correction 0 the
velocity-mode x value is not approximately 0.2113 km/s at the precision the
claim prints (four decimal places): it differs from 0.2113 by more than two
units in the last printed digit. -/
theorem vlsr_sample_value_not_2113 :
    ¬ (|freqToVlsr 0 (F_REST - 1000) - 2113 / 10000| ≤ 1 / 20000) ∧
      1 / 5000 ≤ |freqToVlsr 0 (F_REST - 1000) - 2113 / 10000| := by
  constructor
  · norm_num [freqToVlsr, C, F_REST, abs_le]
  · norm_num [freqToVlsr, C, F_REST, le_abs]

/-- C1 (amended): velocity-mode display is exactly
x = (299792458 * (1420405751 - frequencyHz) / 1420405751 + c) / 1000 in km/s;
with c = 0 a sample at frequencyHz = 1420405751 yields x = 0, and a sample at
frequencyHz = 1420405751 - 1000 yields exactly 299792458 / 1420405751,
which is approximately 0.2111 km/s (not 0.2113). -/
theorem toDisplay_velocity_formula_and_values :
    (∀ (c : ℚ) (s : RawSample),
      toDisplay true (some c) s =
        ⟨(299792458 * (1420405751 - s.freqHz) / 1420405751 + c) / 1000, s.y⟩) ∧
    freqToVlsr 0 F_REST = 0 ∧
    freqToVlsr 0 (F_REST - 1000) = 299792458 / 1420405751 ∧
    |freqToVlsr 0 (F_REST - 1000) - 2111 / 10000| ≤ 1 / 20000 := by
  refine ⟨?_, by norm_num [freqToVlsr, C, F_REST], by norm_num [freqToVlsr, C, F_REST],
    by norm_num [freqToVlsr, C, F_REST, abs_le]⟩
  intro c s
  simp [toDisplay, freqToVlsr, C, F_REST]

/-- C5: for a fixed correction, velocity-mode display x is strictly
monotonically decreasing in frequency. -/
theorem velocity_display_strict_antitone (c y1 y2 f1 f2 : ℚ) (h : f1 < f2) :
    (toDisplay true (some c) ⟨f2, y2⟩).x < (toDisplay true (some c) ⟨f1, y1⟩).x := by
  simp only [toDisplay, freqToVlsr, C, F_REST]
  gcongr

/-- C5 witness: concrete instance at f1 = 0 < f2 = 1, correction 0. -/
theorem velocity_display_strict_antitone_witness :
    (0 : ℚ) < 1 ∧
      (toDisplay true (some 0) ⟨1, 0⟩).x < (toDisplay true (some 0) ⟨0, 0⟩).x :=
  ⟨by norm_num, velocity_display_strict_antitone 0 0 0 0 1 (by norm_num)⟩

/-- One step of the d3.extent fold: undefined accumulator is replaced by the
value, otherwise the running min and max are tightened
(d3 uses "if (min > value) min = value; if (max < value) max = value"). -/
def extStep (acc : Option (ℚ × ℚ)) (v : ℚ) : Option (ℚ × ℚ) :=
  match acc with
  | none => some (v, v)
  | some (mn, mx) => some (if v < mn then v else mn, if mx < v then v else mx)

/-- d3.extent over a rational series: none exactly for the empty series
(d3 returns an undefined pair there). -/
def d3_extent (l : List ℚ) : Option (ℚ × ℚ) :=
  l.foldl extStep none

/-- The drawn output owned by the renderer: the two scale domains, the datum
bound to the path, and the x-axis label text. A domain of none models the
undefined/NaN domain d3 computes from an empty extent. -/
structure Drawn where
  xDomain : Option (ℚ × ℚ)
  yDomain : Option (ℚ × ℚ)
  pathData : Option (List Point)
  xLabel : String
deriving DecidableEq

/-- X-axis label text (observe_chart.js line 150). -/
def axisLabel (sv : Bool) : String :=
  if sv then "VLSR (km/s)" else "Frequency (MHz)"

/-- Toggle-button label text (observe_chart.js line 158). -/
def btnText (sv : Bool) : String :=
  if sv then "Show frequency" else "Show VLSR"

/-- The drawn output produced by one run of the update body
(observe_chart.js lines 137-150): y domain is the amplitude extent padded by
5% of its span on both ends (the subsequent d3 .nice() call is library code
outside the repository), x domain is the raw extent of the display x values. -/
def renderOf (sv : Bool) (corr : Option ℚ) (data : List RawSample) : Drawn :=
  let disp := getDisplayData sv corr data
  let yR := d3_extent (disp.map Point.y)
  let yDom := yR.map (fun p =>
    (p.1 - (p.2 - p.1) * (5 / 100), p.2 + (p.2 - p.1) * (5 / 100)))
  let xDom := d3_extent (disp.map Point.x)
  ⟨xDom, yDom, some disp, axisLabel sv⟩

/-- The mutable state of the live chart script (observe_chart.js lines 18-20,
166, plus the DOM pieces it owns). The button label and visibility are
Options because the script has not touched them before the first metadata
message. -/
structure LiveState where
  receivedMetadata : Bool
  vlsrCorrection : Option ℚ
  showVlsr : Bool
  latestData : Option (List RawSample)
  btnVisible : Option Bool
  btnLabel : Option String
  drawn : Drawn
deriving DecidableEq

/-- The chart as first built: placeholder domains [0,100] and [0,20]
(observe_chart.js lines 26-33), no path datum, frequency label. -/
def initialDrawn : Drawn :=
  ⟨some (0, 100), some (0, 20), none, "Frequency (MHz)"⟩

/-- State at script start (observe_chart.js lines 18-20, 166). -/
def initialState : LiveState :=
  ⟨false, none, false, none, none, none, initialDrawn⟩

/-- updateChart (observe_chart.js lines 135-151): returns untouched when no
data has been stored (the "if (!latestData) return" guard, which only
catches a null store, not a stored empty frame), otherwise redraws from the
current samples and unit. -/
def updateChart (s : LiveState) : LiveState :=
  match s.latestData with
  | none => s
  | some data => { s with drawn := renderOf s.showVlsr s.vlsrCorrection data }

/-- An inbound socket message: the first is parsed as JSON metadata, any
later one is read as a binary frame. A frameMsg carries the samples the
byte loop would decode. -/
inductive MsgData where
  | metaMsg (corr : Option ℚ)
  | frameMsg (samples : List RawSample)

/-- An external event the script reacts to. -/
inductive Event where
  | msg (m : MsgData)
  | toggleClick

/-- The event handlers (observe_chart.js lines 154-160 and 168-198).
A binary message arriving first is modelled by its observable effect: the
metadata flag is set, then JSON parsing of binary garbage throws and the
rest of the handler is skipped. A text message arriving later throws when
read as a binary body, before any state is touched. -/
def step (s : LiveState) : Event → LiveState
  | .msg m =>
    if s.receivedMetadata then
      match m with
      | .metaMsg _ => s
      | .frameMsg d => updateChart { s with latestData := some d }
    else
      match m with
      | .metaMsg c =>
        { s with
          receivedMetadata := true
          vlsrCorrection := c
          showVlsr := c.isSome
          btnVisible := some c.isSome
          btnLabel := if c.isSome then some (btnText true) else s.btnLabel }
      | .frameMsg _ => { s with receivedMetadata := true }
  | .toggleClick =>
    match s.vlsrCorrection with
    | none => s
    | some _ =>
      updateChart { s with showVlsr := !s.showVlsr, btnLabel := some (btnText (!s.showVlsr)) }

/-- The states a live chart can be in, starting from script load. -/
inductive Reachable : LiveState → Prop
  | init : Reachable initialState
  | next : ∀ {s : LiveState} (e : Event), Reachable s → Reachable (step s e)

lemma updateChart_vlsrCorrection (s : LiveState) :
    (updateChart s).vlsrCorrection = s.vlsrCorrection := by
  cases h : s.latestData <;> simp [updateChart, h]

lemma updateChart_showVlsr (s : LiveState) :
    (updateChart s).showVlsr = s.showVlsr := by
  cases h : s.latestData <;> simp [updateChart, h]

lemma updateChart_latestData (s : LiveState) :
    (updateChart s).latestData = s.latestData := by
  cases h : s.latestData <;> simp [updateChart, h]

lemma reachable_correction_invariant :
    ∀ s : LiveState, Reachable s → s.vlsrCorrection = none → s.showVlsr = false := by
  intro s h
  induction h with
  | init => intro _; rfl
  | @next t e _ ih =>
    cases e with
    | msg m =>
      cases m with
      | metaMsg c =>
        by_cases hr : t.receivedMetadata
        · simpa [step, hr] using ih
        · intro hc
          simp only [step, hr, if_false, Bool.false_eq_true] at hc ⊢
          simp_all
      | frameMsg d =>
        by_cases hr : t.receivedMetadata
        · intro hc
          simp only [step, hr, if_true] at hc ⊢
          rw [updateChart_showVlsr]
          rw [updateChart_vlsrCorrection] at hc
          exact ih hc
        · simpa [step, hr] using ih
    | toggleClick =>
      cases hc : t.vlsrCorrection with
      | none => simpa [step, hc] using ih
      | some c =>
        intro habs
        simp only [step, hc] at habs
        rw [updateChart_vlsrCorrection] at habs
        simp at habs

/-- C9: in every reachable live-chart state with a null correction the unit
flag is still Frequency, and a toggle click leaves the state exactly as it
was; in particular the velocity branch of the converter is never reached
without a correction. -/
theorem no_correction_pins_frequency (s : LiveState) (hr : Reachable s)
    (hn : s.vlsrCorrection = none) :
    s.showVlsr = false ∧ step s .toggleClick = s := by
  refine ⟨reachable_correction_invariant s hr hn, ?_⟩
  simp [step, hn]

/-- C9 witness: the initial state is reachable, has a null correction, shows
frequency, and ignores a toggle click. -/
theorem no_correction_pins_frequency_witness :
    initialState.vlsrCorrection = none ∧
      initialState.showVlsr = false ∧ step initialState .toggleClick = initialState :=
  ⟨rfl, no_correction_pins_frequency initialState .init rfl⟩

/-- C4: on a rendered chart with a known correction and stored samples,
clicking the unit toggle twice restores the unit flag, the X scale domain,
and the full display point sequence (hence every DisplayPoint.x) to their
pre-toggle values. -/
theorem toggle_twice_restores_x (s : LiveState) (c : ℚ) (data : List RawSample)
    (hc : s.vlsrCorrection = some c) (hd : s.latestData = some data)
    (_hne : data ≠ []) (hr : s.drawn = renderOf s.showVlsr s.vlsrCorrection data) :
    (step (step s .toggleClick) .toggleClick).showVlsr = s.showVlsr ∧
      (step (step s .toggleClick) .toggleClick).drawn.xDomain = s.drawn.xDomain ∧
      (step (step s .toggleClick) .toggleClick).drawn.pathData = s.drawn.pathData := by
  have h1 : step s .toggleClick =
      { s with
        showVlsr := !s.showVlsr
        btnLabel := some (btnText (!s.showVlsr))
        drawn := renderOf (!s.showVlsr) s.vlsrCorrection data } := by
    simp [step, hc, updateChart, hd]
  have h2 : step (step s .toggleClick) .toggleClick =
      { s with
        showVlsr := s.showVlsr
        btnLabel := some (btnText s.showVlsr)
        drawn := renderOf s.showVlsr s.vlsrCorrection data } := by
    rw [h1]
    simp [step, hc, updateChart, hd]
  rw [h2, hr]
  exact ⟨rfl, rfl, rfl⟩

/-- Concrete rendered state used by the C4 witness. -/
def renderedSample : LiveState :=
  { receivedMetadata := true
    vlsrCorrection := some 0
    showVlsr := false
    latestData := some [⟨1, 2⟩]
    btnVisible := some true
    btnLabel := some (btnText false)
    drawn := renderOf false (some 0) [⟨1, 2⟩] }

/-- C4 witness: the double toggle restores the concrete rendered state. -/
theorem toggle_twice_restores_x_witness :
    renderedSample.vlsrCorrection = some 0 ∧
      renderedSample.latestData = some [⟨1, 2⟩] ∧
      ([⟨1, 2⟩] : List RawSample) ≠ [] ∧
      ((step (step renderedSample .toggleClick) .toggleClick).showVlsr =
          renderedSample.showVlsr ∧
        (step (step renderedSample .toggleClick) .toggleClick).drawn.xDomain =
          renderedSample.drawn.xDomain ∧
        (step (step renderedSample .toggleClick) .toggleClick).drawn.pathData =
          renderedSample.drawn.pathData) :=
  ⟨rfl, rfl, by simp,
    toggle_twice_restores_x renderedSample 0 [⟨1, 2⟩] rfl rfl (by simp) rfl⟩

/-- C10: in live mode, a toggle click arriving after metadata with a known
correction but before any frame flips the unit flag and the button label but
performs no redraw (the update body returns at once since no data is
stored), leaving the drawn path, axes and scales untouched; the next frame
is then rendered in the toggled unit. -/
theorem toggle_before_first_frame_no_redraw (s : LiveState) (c : ℚ)
    (hm : s.receivedMetadata = true) (hc : s.vlsrCorrection = some c)
    (hd : s.latestData = none) :
    (step s .toggleClick).showVlsr = !s.showVlsr ∧
      (step s .toggleClick).btnLabel = some (btnText (!s.showVlsr)) ∧
      (step s .toggleClick).drawn = s.drawn ∧
      (step s .toggleClick).latestData = none ∧
      ∀ d : List RawSample,
        (step (step s .toggleClick) (.msg (.frameMsg d))).drawn =
          renderOf (!s.showVlsr) (some c) d := by
  have h1 : step s .toggleClick =
      { s with
        showVlsr := !s.showVlsr
        btnLabel := some (btnText (!s.showVlsr)) } := by
    simp [step, hc, updateChart, hd]
  rw [h1]
  refine ⟨rfl, rfl, rfl, hd, ?_⟩
  intro d
  simp [step, hm, updateChart, hc]

/-- Concrete state used by the C10 witness: metadata with correction 5 has
arrived, no frame yet. -/
def metaOnlyState : LiveState :=
  step initialState (.msg (.metaMsg (some 5)))

/-- C10 witness: at the concrete post-metadata state the toggle flips the
flag and label, changes nothing drawn, and the next concrete frame is
rendered in the toggled unit. -/
theorem toggle_before_first_frame_no_redraw_witness :
    metaOnlyState.receivedMetadata = true ∧
      metaOnlyState.vlsrCorrection = some 5 ∧
      metaOnlyState.latestData = none ∧
      ((step metaOnlyState .toggleClick).showVlsr = !metaOnlyState.showVlsr ∧
        (step metaOnlyState .toggleClick).btnLabel =
          some (btnText (!metaOnlyState.showVlsr)) ∧
        (step metaOnlyState .toggleClick).drawn = metaOnlyState.drawn ∧
        (step metaOnlyState .toggleClick).latestData = none ∧
        ∀ d : List RawSample,
          (step (step metaOnlyState .toggleClick) (.msg (.frameMsg d))).drawn =
            renderOf (!metaOnlyState.showVlsr) (some 5) d) :=
  ⟨rfl, rfl, rfl,
    toggle_before_first_frame_no_redraw metaOnlyState 5 rfl rfl rfl⟩

/-- State after metadata with a null correction. -/
def nullMetaState : LiveState :=
  step initialState (.msg (.metaMsg none))

/-- State after the null-correction metadata and then an empty (0-byte)
binary frame, whose decode loop runs zero times and stores an empty list. -/
def emptyFrameState : LiveState :=
  step nullMetaState (.msg (.frameMsg []))

/-- C7 counterexample: a render invoked with a stored empty sample sequence
is not turned into "draw nothing": the empty frame passes the
"if (!latestData) return" guard (an empty array is not null), the chart is
redrawn, and the scale domains collapse to the undefined extent of an empty
series. -/
theorem empty_frame_render_changes_drawn :
    emptyFrameState.latestData = some [] ∧
      emptyFrameState.drawn.xDomain = none ∧
      emptyFrameState.drawn.yDomain = none ∧
      emptyFrameState.drawn ≠ nullMetaState.drawn := by
  refine ⟨rfl, rfl, rfl, ?_⟩
  intro h
  have hx : emptyFrameState.drawn.xDomain = nullMetaState.drawn.xDomain := by rw [h]
  simp [emptyFrameState, nullMetaState, step, initialState, updateChart, renderOf,
    getDisplayData, d3_extent, initialDrawn] at hx

/-- C7 (amended): only the null store (no frame received yet) is guarded:
there the update body returns at once and the state, drawn output included,
is exactly unchanged. A stored empty frame is not guarded and redraws with
the degenerate domains of an empty extent. -/
theorem update_noop_only_when_null_store :
    (∀ s : LiveState, s.latestData = none → updateChart s = s) ∧
      (∀ s : LiveState, s.receivedMetadata = true →
        (step s (.msg (.frameMsg []))).drawn =
          ⟨none, none, some [], axisLabel s.showVlsr⟩) := by
  constructor
  · intro s h
    simp [updateChart, h]
  · intro s h
    simp [step, h, updateChart, renderOf, getDisplayData, d3_extent]

/-- C7 witness: the initial state has a null store and the update body
leaves it unchanged; the concrete post-metadata state has received metadata
and an empty frame redraws it with undefined domains. -/
theorem update_noop_only_when_null_store_witness :
    initialState.latestData = none ∧
      updateChart initialState = initialState ∧
      nullMetaState.receivedMetadata = true ∧
      (step nullMetaState (.msg (.frameMsg []))).drawn =
        ⟨none, none, some [], axisLabel nullMetaState.showVlsr⟩ :=
  ⟨rfl, update_noop_only_when_null_store.1 initialState rfl, rfl,
    update_noop_only_when_null_store.2 nullMetaState rfl⟩

lemma extStep_fold_spec (l : List ℚ) :
    ∀ mn mx : ℚ, ∃ a b : ℚ,
      l.foldl extStep (some (mn, mx)) = some (a, b) ∧ a ≤ mn ∧ mx ≤ b ∧
        (a = mn ∨ a ∈ l) ∧ (b = mx ∨ b ∈ l) ∧ ∀ v ∈ l, a ≤ v ∧ v ≤ b := by
  induction l with
  | nil =>
    intro mn mx
    exact ⟨mn, mx, rfl, le_refl _, le_refl _, Or.inl rfl, Or.inl rfl, by simp⟩
  | cons v t ih =>
    intro mn mx
    have hstep : extStep (some (mn, mx)) v =
        some (if v < mn then v else mn, if mx < v then v else mx) := rfl
    obtain ⟨a, b, heq, ham, hbm, hasrc, hbsrc, hall⟩ :=
      ih (if v < mn then v else mn) (if mx < v then v else mx)
    refine ⟨a, b, ?_, ?_, ?_, ?_, ?_, ?_⟩
    · simpa [List.foldl_cons, hstep] using heq
    · split_ifs at ham with h
      · linarith
      · exact ham
    · split_ifs at hbm with h
      · linarith
      · exact hbm
    · rcases hasrc with h | h
      · split_ifs at h
        · exact Or.inr (by simp [h])
        · exact Or.inl h
      · exact Or.inr (List.mem_cons_of_mem v h)
    · rcases hbsrc with h | h
      · split_ifs at h
        · exact Or.inr (by simp [h])
        · exact Or.inl h
      · exact Or.inr (List.mem_cons_of_mem v h)
    · intro w hw
      rcases List.mem_cons.mp hw with h | h
      · subst h
        constructor
        · refine le_trans ham ?_
          split_ifs <;> linarith
        · refine le_trans ?_ hbm
          split_ifs with h
          · linarith
          · linarith
      · exact hall w h

/-- d3.extent of a non-empty series is defined, and is exactly the attained
minimum and maximum of the series. -/
lemma d3_extent_spec (l : List ℚ) (hne : l ≠ []) :
    ∃ a b : ℚ, d3_extent l = some (a, b) ∧ a ∈ l ∧ b ∈ l ∧
      ∀ v ∈ l, a ≤ v ∧ v ≤ b := by
  match l, hne with
  | v :: t, _ =>
    obtain ⟨a, b, heq, ham, hbm, hasrc, hbsrc, hall⟩ := extStep_fold_spec t v v
    refine ⟨a, b, ?_, ?_, ?_, ?_⟩
    · simpa [d3_extent, extStep] using heq
    · rcases hasrc with h | h
      · simp [h]
      · exact List.mem_cons_of_mem v h
    · rcases hbsrc with h | h
      · simp [h]
      · exact List.mem_cons_of_mem v h
    · intro w hw
      rcases List.mem_cons.mp hw with h | h
      · subst h
        exact ⟨ham, hbm⟩
      · exact hall w h

/-- C6: after a render the x domain is the raw attained [min, max] extent of
the display x values with no padding, and the y domain is the attained
amplitude extent padded outward by 5% of its span on each end (before the
library nice rounding); on the samples (100e6, 1.0), (101e6, 3.0),
(102e6, 0.5) in frequency mode this gives x domain [100, 102] MHz and a
pre-padding y extent of [0.5, 3.0]. -/
theorem render_domains_extent :
    (∀ (sv : Bool) (corr : Option ℚ) (data : List RawSample), data ≠ [] →
      ∃ a b lo hi : ℚ,
        (renderOf sv corr data).xDomain = some (a, b) ∧
        a ∈ (getDisplayData sv corr data).map Point.x ∧
        b ∈ (getDisplayData sv corr data).map Point.x ∧
        (∀ v ∈ (getDisplayData sv corr data).map Point.x, a ≤ v ∧ v ≤ b) ∧
        lo ∈ (getDisplayData sv corr data).map Point.y ∧
        hi ∈ (getDisplayData sv corr data).map Point.y ∧
        (∀ v ∈ (getDisplayData sv corr data).map Point.y, lo ≤ v ∧ v ≤ hi) ∧
        (renderOf sv corr data).yDomain =
          some (lo - (hi - lo) * (5 / 100), hi + (hi - lo) * (5 / 100))) ∧
    ((renderOf false none [⟨100000000, 1⟩, ⟨101000000, 3⟩, ⟨102000000, 1 / 2⟩]).xDomain =
        some (100, 102) ∧
      d3_extent ((getDisplayData false none
          [⟨100000000, 1⟩, ⟨101000000, 3⟩, ⟨102000000, 1 / 2⟩]).map Point.y) =
        some (1 / 2, 3)) := by
  constructor
  · intro sv corr data hne
    have hdisp : getDisplayData sv corr data ≠ [] := by
      simp [getDisplayData, hne]
    have hx : (getDisplayData sv corr data).map Point.x ≠ [] := by
      simp [hdisp]
    have hy : (getDisplayData sv corr data).map Point.y ≠ [] := by
      simp [hdisp]
    obtain ⟨a, b, hxeq, hax, hbx, hallx⟩ := d3_extent_spec _ hx
    obtain ⟨lo, hi, hyeq, hly, hhy, hally⟩ := d3_extent_spec _ hy
    refine ⟨a, b, lo, hi, ?_, hax, hbx, hallx, hly, hhy, hally, ?_⟩
    · simp [renderOf, hxeq]
    · simp [renderOf, hyeq]
  · constructor
    · norm_num [renderOf, getDisplayData, toDisplay, d3_extent, extStep, List.foldl]
    · norm_num [getDisplayData, toDisplay, d3_extent, extStep, List.foldl]

/-- C6 witness: the general part instantiated at the concrete sample list of
the claim. -/
theorem render_domains_extent_witness :
    ([⟨100000000, 1⟩, ⟨101000000, 3⟩, ⟨102000000, 1 / 2⟩] : List RawSample) ≠ [] ∧
      ∃ a b lo hi : ℚ,
        (renderOf false none [⟨100000000, 1⟩, ⟨101000000, 3⟩, ⟨102000000, 1 / 2⟩]).xDomain =
          some (a, b) ∧
        a ∈ (getDisplayData false none
            [⟨100000000, 1⟩, ⟨101000000, 3⟩, ⟨102000000, 1 / 2⟩]).map Point.x ∧
        b ∈ (getDisplayData false none
            [⟨100000000, 1⟩, ⟨101000000, 3⟩, ⟨102000000, 1 / 2⟩]).map Point.x ∧
        (∀ v ∈ (getDisplayData false none
            [⟨100000000, 1⟩, ⟨101000000, 3⟩, ⟨102000000, 1 / 2⟩]).map Point.x,
          a ≤ v ∧ v ≤ b) ∧
        lo ∈ (getDisplayData false none
            [⟨100000000, 1⟩, ⟨101000000, 3⟩, ⟨102000000, 1 / 2⟩]).map Point.y ∧
        hi ∈ (getDisplayData false none
            [⟨100000000, 1⟩, ⟨101000000, 3⟩, ⟨102000000, 1 / 2⟩]).map Point.y ∧
        (∀ v ∈ (getDisplayData false none
            [⟨100000000, 1⟩, ⟨101000000, 3⟩, ⟨102000000, 1 / 2⟩]).map Point.y,
          lo ≤ v ∧ v ≤ hi) ∧
        (renderOf false none [⟨100000000, 1⟩, ⟨101000000, 3⟩, ⟨102000000, 1 / 2⟩]).yDomain =
          some (lo - (hi - lo) * (5 / 100), hi + (hi - lo) * (5 / 100)) :=
  ⟨by simp,
    render_domains_extent.1 false none
      [⟨100000000, 1⟩, ⟨101000000, 3⟩, ⟨102000000, 1 / 2⟩] (by simp)⟩

/-- The value denoted by a 64-bit IEEE-754 pattern: an exact rational for
finite values, or an infinity or NaN. -/
inductive Float64Val where
  | finite (q : ℚ)
  | infVal (neg : Bool)
  | nanVal
deriving DecidableEq

/-- Interpretation of a 64-bit word as an IEEE-754 binary64 value. -/
def float64ValOfBits (w : Nat) : Float64Val :=
  let bits : Nat := w % 2 ^ 64
  let sign : Nat := bits / 2 ^ 63
  let expo : Nat := bits / 2 ^ 52 % 2 ^ 11
  let frac : Nat := bits % 2 ^ 52
  if expo = 2047 then
    if frac = 0 then .infVal (sign = 1) else .nanVal
  else
    let mag : ℚ :=
      if expo = 0 then (frac : ℚ) * (2 : ℚ) ^ (-(1074 : ℤ))
      else ((2 ^ 52 + frac : ℕ) : ℚ) * (2 : ℚ) ^ ((expo : ℤ) - 1075)
    .finite (if sign = 1 then -mag else mag)

/-- One decoded record of a live binary frame: the float64 pair the byte
loop pushes (observe_chart.js lines 192-195). -/
structure Sample64 where
  frequencyHz : Float64Val
  amplitude : Float64Val
deriving DecidableEq

/-- Decode error kind of the spec taxonomy: the DataView range error raised
by an out-of-bounds getFloat64 read falls in this kind. -/
inductive DecodeError where
  | MalformedFrame
deriving DecidableEq

/-- The little-endian value of a byte list (first byte least significant). -/
def leBytes (l : List Nat) : Nat :=
  l.foldr (fun b acc => b + 256 * acc) 0

/-- DataView.getFloat64(off, true): reads the 8 bytes starting at off in
little-endian order, and throws a range error when they extend past the end
of the buffer. -/
def getFloat64LE (bytes : List Nat) (off : Nat) : Except DecodeError Float64Val :=
  if off + 8 ≤ bytes.length then
    .ok (float64ValOfBits (leBytes ((bytes.drop off).take 8)))
  else
    .error .MalformedFrame

/-- The decode loop of the onmessage handler (observe_chart.js lines
191-196): i starts at 0 and advances by 16 while i < byteLength, reading the
frequency at i and the amplitude at i + 8. The fuel argument counts the
remaining loop iterations; decodeFrame supplies enough for the guard to be
the only exit. -/
def decodeLoop (bytes : List Nat) : Nat → Nat → Except DecodeError (List Sample64)
  | _, 0 => .ok []
  | i, fuel + 1 =>
    if i < bytes.length then
      match getFloat64LE bytes i, getFloat64LE bytes (i + 8) with
      | .ok f, .ok a =>
        match decodeLoop bytes (i + 16) fuel with
        | .ok rest => .ok (⟨f, a⟩ :: rest)
        | .error e => .error e
      | .error e, _ => .error e
      | .ok _, .error e => .error e
    else
      .ok []

/-- Full decode of one live binary frame. -/
def decodeFrame (bytes : List Nat) : Except DecodeError (List Sample64) :=
  decodeLoop bytes 0 ((bytes.length + 15) / 16)

/-- The sample the loop builds at byte offset off: frequency from the eight
bytes [off, off+8), amplitude from the eight bytes [off+8, off+16), both
little-endian IEEE-754 float64. -/
def sampleAtOff (bytes : List Nat) (off : Nat) : Sample64 :=
  ⟨float64ValOfBits (leBytes ((bytes.drop off).take 8)),
    float64ValOfBits (leBytes ((bytes.drop (off + 8)).take 8))⟩

lemma decodeLoop_error_of_not_dvd (bytes : List Nat) :
    ∀ fuel i : Nat, bytes.length ≤ i + 16 * fuel → (bytes.length - i) % 16 ≠ 0 →
      decodeLoop bytes i fuel = .error .MalformedFrame := by
  intro fuel
  induction fuel with
  | zero =>
    intro i h1 h2
    omega
  | succ fuel ih =>
    intro i h1 h2
    have hi : i < bytes.length := by omega
    by_cases h8 : i + 8 ≤ bytes.length
    · by_cases h16 : i + 8 + 8 ≤ bytes.length
      · have hrec := ih (i + 16) (by omega) (by omega)
        simp [decodeLoop, hi, getFloat64LE, h8, h16, hrec]
      · simp [decodeLoop, hi, getFloat64LE, h8, h16]
    · simp [decodeLoop, hi, getFloat64LE, h8]

lemma decodeLoop_ok_of_dvd (bytes : List Nat) :
    ∀ fuel i : Nat, bytes.length ≤ i + 16 * fuel → i ≤ bytes.length →
      (bytes.length - i) % 16 = 0 →
      decodeLoop bytes i fuel =
        .ok ((List.range ((bytes.length - i) / 16)).map
          (fun k => sampleAtOff bytes (i + 16 * k))) := by
  intro fuel
  induction fuel with
  | zero =>
    intro i h1 h2 h3
    have h0 : bytes.length - i = 0 := by omega
    simp [decodeLoop, h0]
  | succ fuel ih =>
    intro i h1 h2 h3
    by_cases hi : i < bytes.length
    · have h16 : i + 16 ≤ bytes.length := by omega
      have h8 : i + 8 ≤ bytes.length := by omega
      have h88 : i + 8 + 8 ≤ bytes.length := by omega
      have hrec := ih (i + 16) (by omega) (by omega) (by omega)
      have hn : (bytes.length - i) / 16 = (bytes.length - (i + 16)) / 16 + 1 := by
        omega
      rw [hn]
      simp only [decodeLoop, hi, if_true, getFloat64LE, h8, h88, hrec,
        List.range_succ_eq_map, List.map_cons, List.map_map]
      refine congrArg Except.ok (congrArg₂ List.cons ?_ ?_)
      · simp [sampleAtOff]
      · refine List.map_congr_left ?_
        intro k _
        simp only [Function.comp]
        have : i + 16 * Nat.succ k = i + 16 + 16 * k := by omega
        rw [this]
    · have h0 : bytes.length - i = 0 := by omega
      have hguard : ¬ i < bytes.length := hi
      simp [decodeLoop, hguard, h0]

/-- C2: a live binary frame whose byte length is not a multiple of 16 fails
to decode with a MalformedFrame-kind error (so it is rejected, not
rendered), while a 32-byte frame decodes to exactly two samples in input
order, sample k taking its frequency from bytes [16k, 16k+8) and its
amplitude from bytes [16k+8, 16k+16), little-endian IEEE-754 float64. -/
theorem live_binary_frame_decode :
    (∀ bytes : List Nat, bytes.length % 16 ≠ 0 →
      decodeFrame bytes = .error .MalformedFrame) ∧
    (∀ bytes : List Nat, bytes.length = 32 →
      decodeFrame bytes = .ok [sampleAtOff bytes 0, sampleAtOff bytes 16]) ∧
    (∀ (bytes : List Nat) (k : Nat),
      sampleAtOff bytes (16 * k) =
        ⟨float64ValOfBits (leBytes ((bytes.drop (16 * k)).take 8)),
          float64ValOfBits (leBytes ((bytes.drop (16 * k + 8)).take 8))⟩) := by
  refine ⟨?_, ?_, fun bytes k => rfl⟩
  · intro bytes hmod
    have := decodeLoop_error_of_not_dvd bytes ((bytes.length + 15) / 16) 0
      (by omega) (by omega)
    simpa [decodeFrame] using this
  · intro bytes hlen
    have := decodeLoop_ok_of_dvd bytes ((bytes.length + 15) / 16) 0
      (by omega) (by omega) (by omega)
    rw [decodeFrame, this, hlen]
    norm_num [List.range_succ]

/-- C2 witness: a 17-byte frame is rejected and a 32-byte frame decodes to
its two records (here all-zero bytes, decoding to the float64 value +0). -/
theorem live_binary_frame_decode_witness :
    (List.replicate 17 0 : List Nat).length % 16 ≠ 0 ∧
      decodeFrame (List.replicate 17 0) = .error .MalformedFrame ∧
      (List.replicate 32 0 : List Nat).length = 32 ∧
      decodeFrame (List.replicate 32 0) =
        .ok [sampleAtOff (List.replicate 32 0) 0, sampleAtOff (List.replicate 32 0) 16] ∧
      sampleAtOff (List.replicate 32 0) 0 = ⟨.finite 0, .finite 0⟩ :=
  ⟨by simp, live_binary_frame_decode.1 _ (by simp),
    by simp, live_binary_frame_decode.2.1 _ (by simp),
    by norm_num [sampleAtOff, leBytes, float64ValOfBits, List.replicate]⟩

/-- The effect of the binary branch of onmessage (observe_chart.js lines
188-196) on the stored samples: latestData is reassigned to a fresh array
before the loop, so the result never depends on what was stored before; a
mid-frame range error leaves the records pushed before it. -/
def decodePrefix (bytes : List Nat) : Nat → Nat → List Sample64
  | _, 0 => []
  | i, fuel + 1 =>
    if i < bytes.length then
      match getFloat64LE bytes i, getFloat64LE bytes (i + 8) with
      | .ok f, .ok a => ⟨f, a⟩ :: decodePrefix bytes (i + 16) fuel
      | _, _ => []
    else
      []

/-- The stored sample sequence after the binary branch of onmessage runs on
a frame, given the previously stored sequence. -/
def onBinaryFrame (prior : Option (List Sample64)) (bytes : List Nat) :
    Option (List Sample64) :=
  match prior, decodeFrame bytes with
  | _, .ok samples => some samples
  | _, .error _ => some (decodePrefix bytes 0 ((bytes.length + 15) / 16))

/-- C8: after the live session processes a binary frame, the stored sample
sequence is exactly the decode of that frame alone — the same for every
prior store, so earlier frames are discarded wholesale, never merged; at the
session level, a frame message always overwrites the store with the new
frame's samples. -/
theorem frame_replaces_prior_wholesale :
    (∀ (prior : Option (List Sample64)) (bytes : List Nat), bytes.length % 16 = 0 →
      onBinaryFrame prior bytes =
        some ((List.range (bytes.length / 16)).map
          (fun k => sampleAtOff bytes (16 * k)))) ∧
    (∀ (s : LiveState) (d : List RawSample), s.receivedMetadata = true →
      (step s (.msg (.frameMsg d))).latestData = some d) := by
  constructor
  · intro prior bytes hmod
    have hok := decodeLoop_ok_of_dvd bytes ((bytes.length + 15) / 16) 0
      (by omega) (by omega) (by omega)
    have hframe : decodeFrame bytes =
        .ok ((List.range (bytes.length / 16)).map
          (fun k => sampleAtOff bytes (16 * k))) := by
      rw [decodeFrame, hok]
      simp
    cases prior <;> simp [onBinaryFrame, hframe]
  · intro s d hm
    simp [step, hm, updateChart_latestData]

/-- C8 witness: a concrete 32-byte frame replaces a concrete non-empty prior
store with exactly its own two records. -/
theorem frame_replaces_prior_wholesale_witness :
    (List.replicate 32 0 : List Nat).length % 16 = 0 ∧
      onBinaryFrame (some [⟨.finite 1, .finite 1⟩]) (List.replicate 32 0) =
        some ((List.range ((List.replicate 32 0 : List Nat).length / 16)).map
          (fun k => sampleAtOff (List.replicate 32 0) (16 * k))) ∧
      metaOnlyState.receivedMetadata = true ∧
      (step metaOnlyState (.msg (.frameMsg [⟨3, 4⟩]))).latestData = some [⟨3, 4⟩] :=
  ⟨by simp,
    frame_replaces_prior_wholesale.1 (some [⟨.finite 1, .finite 1⟩]) _ (by simp),
    rfl,
    frame_replaces_prior_wholesale.2 metaOnlyState [⟨3, 4⟩] rfl⟩

/-- The sample construction of the historical loader
(observation_chart.js lines 45-48): frequencies.map((f, i) => ...) pairs
frequencies[i] with amplitudes[i]; an index past the end of amplitudes
yields the JavaScript undefined, modelled as none. No length check of any
kind is performed and nothing is thrown, so the result is always ok. -/
def loadSamples (freqs amps : List ℚ) : Except DecodeError (List (ℚ × Option ℚ)) :=
  .ok (freqs.enum.map (fun p => (p.2, amps.get? p.1)))

lemma enum_map_pair_get (amps : List ℚ) :
    ∀ (freqs : List ℚ) (n i : Nat),
      ((List.enumFrom n freqs).map (fun p => (p.2, amps.get? p.1))).get? i =
        (freqs.get? i).map (fun f => (f, amps.get? (n + i))) := by
  intro freqs
  induction freqs with
  | nil => intro n i; simp
  | cons f t ih =>
    intro n i
    cases i with
    | zero => simp [List.enumFrom]
    | succ j =>
      have := ih (n + 1) j
      simpa [List.enumFrom, Nat.add_assoc, Nat.add_comm 1 j] using this

/-- C3 counterexample: a historical payload with frequencies [1, 2] and
amplitudes [5] has arrays of different lengths, yet the decode succeeds and
produces a sample sequence, pairing the second frequency with undefined
instead of failing with a MalformedFrame-kind error. -/
theorem hist_mismatched_lengths_decode_succeeds :
    ([1, 2] : List ℚ).length ≠ ([5] : List ℚ).length ∧
      loadSamples [1, 2] [5] = .ok [(1, some 5), (2, none)] := by
  constructor
  · simp
  · simp [loadSamples, List.enum, List.enumFrom]

/-- C3 (amended): the historical decode never fails, whatever the two array
lengths: it produces exactly one sample per frequency in order, where sample
i pairs frequencies[i] with amplitudes[i] when i is within the amplitudes
array and with undefined otherwise; extra amplitudes are ignored. -/
theorem hist_decode_positional_total (freqs amps : List ℚ) :
    (∀ e : DecodeError, loadSamples freqs amps ≠ .error e) ∧
      ∃ l : List (ℚ × Option ℚ), loadSamples freqs amps = .ok l ∧
        l.length = freqs.length ∧
        ∀ i : Nat, l.get? i = (freqs.get? i).map (fun f => (f, amps.get? i)) := by
  refine ⟨fun e h => by simp [loadSamples] at h, ?_⟩
  refine ⟨_, rfl, by simp [loadSamples], ?_⟩
  intro i
  have := enum_map_pair_get amps freqs 0 i
  simpa [List.enum] using this

/-- C3 amended-claim witness: concrete mismatched payload, evaluated. -/
theorem hist_decode_positional_total_witness :
    ∃ l : List (ℚ × Option ℚ), loadSamples [1, 2] [5] = .ok l ∧
      l.length = ([1, 2] : List ℚ).length ∧
      ∀ i : Nat, l.get? i = (([1, 2] : List ℚ).get? i).map
        (fun f => (f, ([5] : List ℚ).get? i)) :=
  (hist_decode_positional_total [1, 2] [5]).2

end Salsa
